import Mathlib

/-!
Verification development for the LefCoin sentiment-oracle pipeline
(`oracle/sentiment_pipeline.py`).

Embedding conventions:
* Python floats are modelled as exact rationals (`ℚ`).
* Python `int(x)` (truncation toward zero) is `pyTrunc`; Python `round`
  (banker's rounding, round-half-to-even) is `pyRound`; Python `//` on
  integers (floor division) is `Int.fdiv`.
* Python exceptions are modelled with `Except String`: an adapter that
  raises is an `Except.error` value.
* Network effects (the chain client, the remote LLM endpoint) are modelled
  as explicit oracle parameters; the observable calls the submitter makes
  are recorded as a `ChainEvent` trace, and log output as a `LogEvent`
  trace.
* Python dicts keyed by strings (`source_meta`) are association lists with
  replace-on-assign semantics (`metaSet`); insertion order is preserved,
  matching CPython dicts.
-/

/-- Python truncation toward zero: `int(q)` for a float/rational `q`. -/
def pyTrunc (q : ℚ) : ℤ :=
  if 0 ≤ q then ⌊q⌋ else ⌈q⌉

/-- Python `round` to the nearest integer, ties to the even integer
(banker's rounding). -/
def pyRound (q : ℚ) : ℤ :=
  if q - ⌊q⌋ < 1/2 then ⌊q⌋
  else if 1/2 < q - ⌊q⌋ then ⌊q⌋ + 1
  else if 2 ∣ ⌊q⌋ then ⌊q⌋ else ⌊q⌋ + 1

/-- Clamp an integer into `[lo, hi]`, as `max lo (min hi x)`. -/
def clampInt (lo hi x : ℤ) : ℤ :=
  max lo (min hi x)

/-- Class `SourceResult` — standardised result from a data source
(`sentiment_pipeline.py`, class `SourceResult`). -/
structure SourceResult where
  name : String
  texts : List String
  scores : List ℚ
  count : ℤ
  error : Option String
deriving DecidableEq, Repr

/-- Constructor `SourceResult.__init__`: `texts`/`scores` default to `[]`;
`self.count = count or len(self.texts) + len(self.scores)` — Python `or`
falls through exactly when the explicit `count` is falsy, i.e. `0`. -/
def SourceResult.make (name : String) (texts : List String) (scores : List ℚ)
    (count : ℤ) (error : Option String) : SourceResult :=
  { name := name
    texts := texts
    scores := scores
    count := if count = 0 then (texts.length + scores.length : ℤ) else count
    error := error }

/-- Function `_safe_fetch`: wrapper that catches all exceptions from a data source;
on an exception `e` it returns `SourceResult(name=name, error=str(e))`. -/
def safeFetch (name : String) (fetch : Except String SourceResult) : SourceResult :=
  match fetch with
  | Except.ok r => r
  | Except.error e => SourceResult.make name [] [] 0 (some e)

/-- The `SentimentAnalyzer.POSITIVE` keyword set. -/
def POSITIVE : List String :=
  ["peace", "treaty", "agreement", "cooperation", "aid", "donation",
   "charity", "volunteer", "love", "hope", "growth", "recovery",
   "sustainable", "renewable", "conservation", "health", "education",
   "community", "celebrate", "progress", "breakthrough", "success",
   "kindness", "generosity", "innovation", "clean", "protect",
   "harmony", "prosperity", "freedom", "justice", "wellness",
   "solar", "wind", "recycle", "restore", "thrive", "flourish",
   "unity", "solidarity", "empower", "uplift", "heal", "cure",
   "vaccine", "immunize", "literacy", "graduate", "scholarship",
   "refuge", "rescue", "rebuild", "resilient", "champion"]

/-- The `SentimentAnalyzer.NEGATIVE` keyword set. -/
def NEGATIVE : List String :=
  ["war", "conflict", "attack", "violence", "crisis", "disaster",
   "pollution", "destruction", "poverty", "disease", "corruption",
   "fraud", "collapse", "threat", "bomb", "death", "famine",
   "drought", "extinction", "inequality", "injustice", "abuse",
   "terror", "missile", "siege", "casualty", "pandemic",
   "contamination", "deforestation", "toxic", "smog", "flood",
   "earthquake", "hurricane", "wildfire", "genocide", "massacre",
   "recession", "unemployment", "homelessness", "overdose",
   "trafficking", "exploit", "embargo", "sanction", "airstrike"]

/-- The punctuation characters stripped from each word:
Python `word.strip(".,!?;:'\"()-[]")` (apostrophe is `Char.ofNat 39`,
double quote `Char.ofNat 34`). -/
def stripChars : List Char :=
  ['.', ',', '!', '?', ';', ':', Char.ofNat 39, Char.ofNat 34,
   '(', ')', '-', '[', ']']

/-- Python `w.strip(chars)`: drop the listed characters from both ends. -/
def pyStrip (w : String) : String :=
  String.mk (((w.data.dropWhile (· ∈ stripChars)).reverse.dropWhile
    (· ∈ stripChars)).reverse)

/-- Python `text.lower().split()`: lowercase, then split on whitespace.
(Python drops empty fields; empty fields never match a keyword, so
keeping them does not change any count.) -/
def pyWords (text : String) : List String :=
  text.toLower.split (·.isWhitespace)

/-- One word's contribution to the `(pos, neg)` counters of
`_analyze_keyword`. -/
def keywordStep (acc : ℕ × ℕ) (word : String) : ℕ × ℕ :=
  let w := pyStrip word
  if w ∈ POSITIVE then (acc.1 + 1, acc.2)
  else if w ∈ NEGATIVE then (acc.1, acc.2 + 1)
  else acc

/-- Method `SentimentAnalyzer._analyze_keyword`: count positive and negative
keyword hits over all texts; return `pos / (pos + neg)`, or `0.5` when
neither set matched. -/
def analyzeKeyword (texts : List String) : ℚ :=
  let c := texts.foldl (fun acc text => (pyWords text).foldl keywordStep acc) (0, 0)
  if c.1 + c.2 = 0 then 1/2 else (c.1 : ℚ) / ((c.1 : ℚ) + (c.2 : ℚ))

/-- Analyzer configuration: whether the local-LLM mode is enabled, and an
oracle for the outcome of the remote call (`_analyze_llm` returns `None`
on any failure, else a value already clamped to `[0,1]`). -/
structure AnalyzerCfg where
  useLocalLLM : Bool
  llmOutcome : List String → String → Option ℚ

/-- Method `SentimentAnalyzer.analyze`: `0.5` on empty input; try the LLM when
configured, falling back to the keyword scorer when it reports no
answer. -/
def analyze (cfg : AnalyzerCfg) (texts : List String) (context : String) : ℚ :=
  if texts = [] then 1/2
  else if cfg.useLocalLLM then
    match cfg.llmOutcome texts context with
    | some s => s
    | none => analyzeKeyword texts
  else analyzeKeyword texts

/-- One provenance dict value of `_blend`'s `source_meta`; Python builds a
string-keyed dict per source, so each possible key is an optional field. -/
structure MetaEntry where
  status : Option String
  textsN : Option ℕ
  scoresN : Option ℕ
  errMsg : Option String
deriving DecidableEq, Repr

/-- The empty Python dict `{}` as a `MetaEntry`. -/
def MetaEntry.empty : MetaEntry :=
  { status := none, textsN := none, scoresN := none, errMsg := none }

/-- The dict value with status error and the error message. -/
def MetaEntry.ofError (e : String) : MetaEntry :=
  { status := some "error", textsN := none, scoresN := none, errMsg := some e }

/-- The dict value with status ok and a text count. -/
def MetaEntry.ofTexts (n : ℕ) : MetaEntry :=
  { status := some "ok", textsN := some n, scoresN := none, errMsg := none }

/-- Python `old.update({"status": "ok", "scores": n})`: existing keys are
overwritten, others kept. -/
def MetaEntry.updScores (old : MetaEntry) (n : ℕ) : MetaEntry :=
  { status := some "ok", textsN := old.textsN, scoresN := some n,
    errMsg := old.errMsg }

/-- Dict assignment `d[k] = v` on an insertion-ordered association list:
replace in place if the key exists, else append. -/
def metaSet : List (String × MetaEntry) → String → MetaEntry → List (String × MetaEntry)
  | [], k, v => [(k, v)]
  | (k', v') :: rest, k, v =>
      if k' = k then (k, v) :: rest else (k', v') :: metaSet rest k v

/-- Dict lookup `d.get(k)`. -/
def metaGet : List (String × MetaEntry) → String → Option MetaEntry
  | [], _ => none
  | (k', v') :: rest, k => if k' = k then some v' else metaGet rest k

/-- Python truthiness of the `error` field as tested by `_blend`'s
`if r.error:` — `None` AND the empty string are falsy, so a result with
`error = ""` (producible, e.g. `str(ValueError())`) falls through to the
data branches. -/
def SourceResult.errTruthy (r : SourceResult) : Bool :=
  match r.error with
  | none => false
  | some e => if e = "" then false else true

/-- The data branches of `_blend`'s collection loop (`if r.texts:` /
`if r.scores:`): texts and scores are concatenated and per-source counts
recorded (the scores branch merges into any entry the texts branch just
wrote, via `dict.get` + `update`). -/
def blendDataStep (acc : List String × List ℚ × List (String × MetaEntry))
    (r : SourceResult) : List String × List ℚ × List (String × MetaEntry) :=
  let afterTexts :=
    if r.texts = [] then acc
    else (acc.1 ++ r.texts, acc.2.1,
          metaSet acc.2.2 r.name (MetaEntry.ofTexts r.texts.length))
  if r.scores = [] then afterTexts
  else
    let old := (metaGet afterTexts.2.2 r.name).getD MetaEntry.empty
    (afterTexts.1, afterTexts.2.1 ++ r.scores,
     metaSet afterTexts.2.2 r.name (old.updScores r.scores.length))

/-- The body of `_blend`'s collection loop for one `SourceResult`:
`if r.error:` — a truthy (non-empty) error records only provenance and
skips the data branches; a falsy error (`None` or `""`) falls through to
them. -/
def blendStep (acc : List String × List ℚ × List (String × MetaEntry))
    (r : SourceResult) : List String × List ℚ × List (String × MetaEntry) :=
  match r.error with
  | some e =>
    if e = "" then blendDataStep acc r
    else (acc.1, acc.2.1, metaSet acc.2.2 r.name (MetaEntry.ofError e))
  | none => blendDataStep acc r

/-- The collection loop of `_blend`: builds `all_texts`, `all_scores`,
`source_meta` in source order. -/
def blendCollect (results : List SourceResult) :
    List String × List ℚ × List (String × MetaEntry) :=
  results.foldl blendStep ([], [], [])

/-- The blended value of `_blend` before conversion to an integer:
`0.6 * text_score + 0.4 * numeric_score` when both are defined, the one
defined value when only one is, `0.5` when neither is. -/
def blendedQ (cfg : AnalyzerCfg) (results : List SourceResult)
    (context : String) : ℚ :=
  let c := blendCollect results
  let textScore : Option ℚ :=
    if c.1 = [] then none else some (analyze cfg c.1 context)
  let numericScore : Option ℚ :=
    if c.2.1 = [] then none else some (c.2.1.sum / (c.2.1.length : ℚ))
  match textScore, numericScore with
  | some t, some n => t * 0.6 + n * 0.4
  | some t, none => t
  | none, some n => n
  | none, none => 0.5

/-- Method `SubindexAggregator._blend`: returns `(int(blended * 1000), source_meta)`. -/
def blend (cfg : AnalyzerCfg) (results : List SourceResult)
    (context : String) : ℤ × List (String × MetaEntry) :=
  (pyTrunc (blendedQ cfg results context * 1000), (blendCollect results).2.2)

/-- An observable call to the chain client made by `OracleSubmitter`
in live mode (web3 connection, nonce fetch, per-category transaction
build / sign / send / confirmation wait). -/
inductive ChainEvent where
  | connect
  | getNonce
  | buildTx (id : ℕ) (score nonce : ℤ)
  | signTx (id : ℕ)
  | sendTx (id : ℕ)
  | waitConfirm (id : ℕ)
deriving DecidableEq, Repr

/-- A log line emitted by `OracleSubmitter`. -/
inductive LogEvent where
  | dryRunHeader
  | dryRunScore (id : ℕ) (score : ℤ)
  | submitting (id : ℕ) (score : ℤ)
  | updated (id : ℕ)
  | errorLog (msg : String)
  | notSubmittedHeader
  | notSubmitted (id : ℕ) (score : ℤ)
deriving DecidableEq, Repr

/-- Outcome of one category's live update attempt, supplied by the chain
environment: `ok` means the transaction is built, signed, sent and
confirmed; `fault p msg` means an exception is raised while executing
phase `p` (0 = build, 1 = sign, 2 = send, 3 = confirmation wait /
timeout). -/
inductive StepOutcome where
  | ok
  | fault (phase : Fin 4) (msg : String)
deriving DecidableEq, Repr

/-- The chain-client environment the submitter runs against:
`web3Available = false` models the `ImportError` path; `nonceResult`
models connection / key / `get_transaction_count` setup (its error case
covers an unavailable chain client); `outcome` gives each category
update's fate. -/
structure ChainEnv where
  web3Available : Bool
  nonceResult : Except String ℤ
  outcome : ℕ → StepOutcome

/-- Insertion of a key into a sorted key list (used to model Python
`sorted(scores.keys())`). -/
def insertSorted (x : ℕ) : List ℕ → List ℕ
  | [] => [x]
  | y :: ys => if x ≤ y then x :: y :: ys else y :: insertSorted x ys

/-- Python `sorted(...)` on a list of keys. -/
def sortKeys (l : List ℕ) : List ℕ :=
  l.foldr insertSorted []

/-- Dict lookup `scores[k]` (the submitter only looks up keys taken from
the dict itself, so the default is never observed). -/
def lookupScore (scores : List (ℕ × ℤ)) (k : ℕ) : ℤ :=
  match scores.find? (fun p => p.1 = k) with
  | some p => p.2
  | none => 0

/-- The chain events of one category attempt: build, sign, send, wait. -/
def attemptEvents (id : ℕ) (score nonce : ℤ) : List ChainEvent :=
  [ChainEvent.buildTx id score nonce, ChainEvent.signTx id,
   ChainEvent.sendTx id, ChainEvent.waitConfirm id]

/-- Method `OracleSubmitter._log_scores`: log every score with id < 5, in sorted
key order, under a "not submitted" header. -/
def logScores (scores : List (ℕ × ℤ)) : List LogEvent :=
  LogEvent.notSubmittedHeader ::
    (sortKeys (scores.map Prod.fst)).filterMap (fun sid =>
      if sid < 5 then some (LogEvent.notSubmitted sid (lookupScore scores sid))
      else none)

/-- The live submission loop of `submit_scores`: for each key in sorted
order, skip ids ≥ 5, clamp the score to `[0, 1000]`, log the attempt,
perform the chain calls, and on confirmation bump the nonce; a fault
stops the loop and returns the exception message. -/
def submitLoop (env : ChainEnv) (scores : List (ℕ × ℤ)) :
    List ℕ → ℤ → List ChainEvent × List LogEvent × Option String
  | [], _ => ([], [], none)
  | id :: rest, nonce =>
    if 5 ≤ id then submitLoop env scores rest nonce
    else
      let sc := max 0 (min 1000 (lookupScore scores id))
      match env.outcome id with
      | StepOutcome.ok =>
        let tail := submitLoop env scores rest (nonce + 1)
        (attemptEvents id sc nonce ++ tail.1,
         LogEvent.submitting id sc :: LogEvent.updated id :: tail.2.1,
         tail.2.2)
      | StepOutcome.fault p msg =>
        ((attemptEvents id sc nonce).take (p.val + 1),
         [LogEvent.submitting id sc], some msg)

/-- Method `OracleSubmitter.submit_scores`: dry-run logs and returns without any
chain call; live mode connects, fetches the nonce once, then runs the
sorted submission loop; any exception (missing web3, setup failure, or a
category fault) falls to `_log_scores` for the whole dict. -/
def submitScores (env : ChainEnv) (scores : List (ℕ × ℤ))
    (dryRun : Bool) : List ChainEvent × List LogEvent :=
  if dryRun then
    ([], LogEvent.dryRunHeader ::
      (sortKeys (scores.map Prod.fst)).filterMap (fun sid =>
        if sid < 5 then some (LogEvent.dryRunScore sid (lookupScore scores sid))
        else none))
  else if env.web3Available = false then
    ([], LogEvent.errorLog "web3 not installed" :: logScores scores)
  else
    match env.nonceResult with
    | Except.error e =>
      ([ChainEvent.connect],
       LogEvent.errorLog ("On-chain submission failed: " ++ e) :: logScores scores)
    | Except.ok nonce0 =>
      let res := submitLoop env scores (sortKeys (scores.map Prod.fst)) nonce0
      match res.2.2 with
      | none => (ChainEvent.connect :: ChainEvent.getNonce :: res.1, res.2.1)
      | some msg =>
        (ChainEvent.connect :: ChainEvent.getNonce :: res.1,
         res.2.1 ++ (LogEvent.errorLog ("On-chain submission failed: " ++ msg)
           :: logScores scores))

/-- The per-subindex publication weights of `run_once`
(`weights = [2000, 1500, 2000, 1500, 1500]`). -/
def SUBINDEX_WEIGHTS : List ℤ :=
  [2000, 1500, 2000, 1500, 1500]

/-- The configuration fields `run_once` observes through
`available_sources` (tier-2 credentials; tier-1 sources need none). -/
structure Config where
  newsapiKey : String
  twitterBearerToken : String
  serperApiKey : String
  redditClientId : String
  redditClientSecret : String
  youtubeApiKey : String
  aqicnToken : String

/-- Method `Config.available_sources`: the static tier-1 list plus each tier-2
source whose credential is configured (non-empty). -/
def availableSources (cfg : Config) : List String :=
  ["gdelt", "open_meteo", "carbon_intensity", "hedonometer",
   "disease_sh", "world_bank", "reliefweb",
   "gbif_bees", "inaturalist_bees", "faostat_bees",
   "global_forest_watch", "who_gho", "un_sdg"]
  ++ (if cfg.newsapiKey ≠ "" then ["newsapi"] else [])
  ++ (if cfg.twitterBearerToken ≠ "" then ["twitter"] else [])
  ++ (if cfg.serperApiKey ≠ "" then ["serper"] else [])
  ++ (if cfg.redditClientId ≠ "" ∧ cfg.redditClientSecret ≠ "" then ["reddit"] else [])
  ++ (if cfg.youtubeApiKey ≠ "" then ["youtube"] else [])
  ++ (if cfg.aqicnToken ≠ "" then ["aqicn"] else [])

/-- The structured cycle report returned by `run_once`: timestamp,
off-chain composite, per-category scores (string keys "0".."4"),
per-category per-source status, and the available sources. It carries no
per-category submission status. -/
structure CycleReport where
  timestamp : String
  composite : ℤ
  scores : List (String × ℤ)
  sources : List (String × List (String × String))
  availableSources : List String
deriving DecidableEq, Repr

/-- Projection `sv.get` with default unknown applied to one provenance dict. -/
def metaStatuses (meta : List (String × MetaEntry)) : List (String × String) :=
  meta.map (fun p => (p.1, p.2.status.getD "unknown"))

/-- Method `SentimentPipeline.run_once`, parameterized over the five aggregator
results (`cat i` is `(score, meta)` for subindex `i`, produced by
`score_peace` .. `score_wellness`, which are network-bound), the chain
environment, the dry-run flag, and the current timestamp. Returns the
cycle report together with the chain-event and log-event traces of the
submission step. -/
def runOnce (cfg : Config) (env : ChainEnv)
    (cat : Fin 5 → ℤ × List (String × MetaEntry)) (dryRun : Bool)
    (now : String) : CycleReport × List ChainEvent × List LogEvent :=
  let scoresDict : List (ℕ × ℤ) :=
    [(0, (cat 0).1), (1, (cat 1).1), (2, (cat 2).1), (3, (cat 3).1), (4, (cat 4).1)]
  let composite : ℤ :=
    ((List.range 5).map (fun i =>
      lookupScore scoresDict i * SUBINDEX_WEIGHTS.getD i 0)).sum
  let offChainComposite := composite.fdiv 8500
  let submitted := submitScores env scoresDict dryRun
  ({ timestamp := now
     composite := offChainComposite
     scores := [("0", (cat 0).1), ("1", (cat 1).1), ("2", (cat 2).1),
                ("3", (cat 3).1), ("4", (cat 4).1)]
     sources := [("peace", metaStatuses (cat 0).2),
                 ("charity", metaStatuses (cat 1).2),
                 ("social", metaStatuses (cat 2).2),
                 ("environment", metaStatuses (cat 3).2),
                 ("wellness", metaStatuses (cat 4).2)]
     availableSources := availableSources cfg },
   submitted.1, submitted.2)

/-- A fixed analyzer configuration with the LLM mode off (used for
concrete evaluations; `USE_LOCAL_LLM` defaults to false). -/
def kwCfg : AnalyzerCfg :=
  { useLocalLLM := false, llmOutcome := fun _ _ => none }

/-- The texts `_blend` concatenates: those of the blendable results
(falsy `error`, i.e. `None` or `""`), in source order. -/
def collectTexts (rs : List SourceResult) : List String :=
  ((rs.filter (fun r => !r.errTruthy)).map SourceResult.texts).flatten

/-- The scores `_blend` concatenates: those of the blendable results
(falsy `error`, i.e. `None` or `""`), in source order. -/
def collectScores (rs : List SourceResult) : List ℚ :=
  ((rs.filter (fun r => !r.errTruthy)).map SourceResult.scores).flatten

lemma blendDataStep_fst (acc : List String × List ℚ × List (String × MetaEntry))
    (r : SourceResult) :
    (blendDataStep acc r).1 = acc.1 ++ r.texts := by
  unfold blendDataStep
  by_cases ht : r.texts = [] <;> by_cases hs : r.scores = [] <;> simp [ht, hs]

lemma blendDataStep_snd (acc : List String × List ℚ × List (String × MetaEntry))
    (r : SourceResult) :
    (blendDataStep acc r).2.1 = acc.2.1 ++ r.scores := by
  unfold blendDataStep
  by_cases ht : r.texts = [] <;> by_cases hs : r.scores = [] <;> simp [ht, hs]

lemma blendStep_fst (acc : List String × List ℚ × List (String × MetaEntry))
    (r : SourceResult) :
    (blendStep acc r).1 = acc.1 ++ (if r.errTruthy = true then [] else r.texts) := by
  unfold blendStep SourceResult.errTruthy
  cases h : r.error with
  | none => simp [blendDataStep_fst]
  | some e =>
    by_cases he : e = ""
    · simp [he, blendDataStep_fst]
    · simp [he]

lemma blendStep_snd (acc : List String × List ℚ × List (String × MetaEntry))
    (r : SourceResult) :
    (blendStep acc r).2.1
      = acc.2.1 ++ (if r.errTruthy = true then [] else r.scores) := by
  unfold blendStep SourceResult.errTruthy
  cases h : r.error with
  | none => simp [blendDataStep_snd]
  | some e =>
    by_cases he : e = ""
    · simp [he, blendDataStep_snd]
    · simp [he]

lemma collectTexts_cons (r : SourceResult) (rest : List SourceResult) :
    collectTexts (r :: rest)
      = (if r.errTruthy = true then [] else r.texts) ++ collectTexts rest := by
  cases hT : r.errTruthy <;> simp [collectTexts, List.filter_cons, hT]

lemma collectScores_cons (r : SourceResult) (rest : List SourceResult) :
    collectScores (r :: rest)
      = (if r.errTruthy = true then [] else r.scores) ++ collectScores rest := by
  cases hT : r.errTruthy <;> simp [collectScores, List.filter_cons, hT]

lemma foldl_blendStep_collect :
    ∀ (rs : List SourceResult) (acc : List String × List ℚ × List (String × MetaEntry)),
      (rs.foldl blendStep acc).1 = acc.1 ++ collectTexts rs ∧
      (rs.foldl blendStep acc).2.1 = acc.2.1 ++ collectScores rs := by
  intro rs
  induction rs with
  | nil => intro acc; simp [collectTexts, collectScores]
  | cons r rest ih =>
    intro acc
    simp only [List.foldl_cons]
    obtain ⟨ih1, ih2⟩ := ih (blendStep acc r)
    rw [ih1, ih2, blendStep_fst, blendStep_snd, collectTexts_cons,
      collectScores_cons]
    simp [List.append_assoc]

lemma blendCollect_texts (rs : List SourceResult) :
    (blendCollect rs).1 = collectTexts rs := by
  have := foldl_blendStep_collect rs ([], [], [])
  simpa [blendCollect] using this.1

lemma blendCollect_scores (rs : List SourceResult) :
    (blendCollect rs).2.1 = collectScores rs := by
  have := foldl_blendStep_collect rs ([], [], [])
  simpa [blendCollect] using this.2

/-- The blended value is a function of the collected texts and scores. -/
lemma blendedQ_eq (cfg : AnalyzerCfg) (rs : List SourceResult) (ctx : String) :
    blendedQ cfg rs ctx =
      (match (if collectTexts rs = [] then none
                else some (analyze cfg (collectTexts rs) ctx) : Option ℚ),
             (if collectScores rs = [] then none
                else some ((collectScores rs).sum / ((collectScores rs).length : ℚ))
                : Option ℚ) with
       | some t, some n => t * 0.6 + n * 0.4
       | some t, none => t
       | none, some n => n
       | none, none => 0.5) := by
  simp only [blendedQ, blendCollect_texts, blendCollect_scores]

/-- Core invariance: the blended score is determined by the sublist of
blendable (falsy-error) results. -/
lemma blend_score_of_filter_eq (cfg : AnalyzerCfg) (rs1 rs2 : List SourceResult)
    (ctx : String)
    (h : rs1.filter (fun r => !r.errTruthy) = rs2.filter (fun r => !r.errTruthy)) :
    (blend cfg rs1 ctx).1 = (blend cfg rs2 ctx).1 := by
  have ht : collectTexts rs1 = collectTexts rs2 := by
    unfold collectTexts; rw [h]
  have hs : collectScores rs1 = collectScores rs2 := by
    unfold collectScores; rw [h]
  unfold blend
  rw [blendedQ_eq, blendedQ_eq, ht, hs]

lemma collectTexts_nil_of_all_nil (rs : List SourceResult)
    (h : ∀ r ∈ rs, r.errTruthy = false → r.texts = []) :
    collectTexts rs = [] := by
  induction rs with
  | nil => rfl
  | cons r rest ih =>
    rw [collectTexts_cons]
    have hrest := ih (fun r' hr' => h r' (by simp [hr']))
    cases hT : r.errTruthy with
    | false => simp [hT, h r (by simp) hT, hrest]
    | true => simp [hT, hrest]

lemma collectScores_nil_of_all_nil (rs : List SourceResult)
    (h : ∀ r ∈ rs, r.errTruthy = false → r.scores = []) :
    collectScores rs = [] := by
  induction rs with
  | nil => rfl
  | cons r rest ih =>
    rw [collectScores_cons]
    have hrest := ih (fun r' hr' => h r' (by simp [hr']))
    cases hT : r.errTruthy with
    | false => simp [hT, h r (by simp) hT, hrest]
    | true => simp [hT, hrest]

lemma collectScores_ne_nil (rs : List SourceResult)
    (h : ∃ r ∈ rs, r.errTruthy = false ∧ r.scores ≠ []) :
    collectScores rs ≠ [] := by
  obtain ⟨r, hr, hT, hs⟩ := h
  induction rs with
  | nil => simp at hr
  | cons r0 rest ih =>
    rw [collectScores_cons]
    rcases List.mem_cons.mp hr with h0 | h0
    · subst h0
      simp only [hT]
      rw [if_neg (by simp)]
      intro hcontra
      exact hs (List.append_eq_nil.mp hcontra).1
    · have hrest := ih h0
      cases hT0 : r0.errTruthy with
      | true => simpa [hT0] using hrest
      | false =>
        rw [if_neg (by simp)]
        intro hcontra
        exact hrest (List.append_eq_nil.mp hcontra).2

/-- C3 — For every adapter function and every input, if the adapter
raises any exception, `_safe_fetch` returns a `SourceResult` carrying only
the error description (empty texts and scores, zero count), and no
exception propagates past the wrapper (the wrapper is a total function
into `SourceResult`). -/
theorem safeFetch_error_isolated (name : String) (fetch : Except String SourceResult)
    (e : String) (h : fetch = Except.error e) :
    safeFetch name fetch =
      { name := name, texts := [], scores := [], count := 0, error := some e } := by
  subst h
  rfl

theorem safeFetch_error_isolated_witness :
    (Except.error "HTTP 500" : Except String SourceResult) = Except.error "HTTP 500" ∧
    safeFetch "gdelt" (Except.error "HTTP 500") =
      { name := "gdelt", texts := [], scores := [], count := 0, error := some "HTTP 500" } :=
  ⟨rfl, safeFetch_error_isolated "gdelt" (Except.error "HTTP 500") "HTTP 500" rfl⟩

/-- C4 counterexample — the claim fails on the code because `_blend`
tests `if r.error:` with Python truthiness: a member whose `error` is set
to the empty string (producible, e.g. `str(ValueError())` in
`_safe_fetch`) satisfies "has error set" but is falsy, so its data is
blended. With the single member `{error: "", scores: [0.9]}` every member
has `error` set, yet the code returns 900, not the claimed 500. -/
theorem neutral_claim_empty_error_cex :
    (∀ r ∈ [SourceResult.make "s" [] [9/10] 0 (some "")],
        r.error ≠ none ∨ (r.texts = [] ∧ r.scores = [])) ∧
    (blend kwCfg [SourceResult.make "s" [] [9/10] 0 (some "")] "ctx").1 = 900 := by
  constructor
  · decide
  · have hb : blendedQ kwCfg [SourceResult.make "s" [] [9/10] 0 (some "")] "ctx"
        = 9/10 := by
      rw [blendedQ_eq,
        show collectTexts [SourceResult.make "s" [] [9/10] 0 (some "")] = []
          from by simp [collectTexts, SourceResult.make, SourceResult.errTruthy],
        show collectScores [SourceResult.make "s" [] [9/10] 0 (some "")] = [9/10]
          from by simp [collectScores, SourceResult.make, SourceResult.errTruthy],
        if_neg (show ¬([9/10] : List ℚ) = [] from by simp)]
      norm_num
    simp only [blend, hb]
    norm_num [pyTrunc]

/-- C4 (amended) — for every set of `SourceResult`s in which every member
either has a truthy error (a non-`None`, non-empty error string) or
carries no texts and no scores, `_blend` returns exactly 500. -/
theorem blend_neutral_500 (cfg : AnalyzerCfg) (rs : List SourceResult) (ctx : String)
    (h : ∀ r ∈ rs, r.errTruthy = true ∨ (r.texts = [] ∧ r.scores = [])) :
    (blend cfg rs ctx).1 = 500 := by
  have ht : collectTexts rs = [] := by
    apply collectTexts_nil_of_all_nil
    intro r hr hT
    rcases h r hr with h' | h'
    · rw [hT] at h'; simp at h'
    · exact h'.1
  have hs : collectScores rs = [] := by
    apply collectScores_nil_of_all_nil
    intro r hr hT
    rcases h r hr with h' | h'
    · rw [hT] at h'; simp at h'
    · exact h'.2
  unfold blend
  rw [blendedQ_eq, ht, hs]
  norm_num [pyTrunc]

theorem blend_neutral_500_witness :
    (∀ r ∈ [SourceResult.make "gdelt" [] [] 0 (some "HTTP 500"),
            SourceResult.make "reliefweb" [] [] 0 none],
       r.errTruthy = true ∨ (r.texts = [] ∧ r.scores = [])) ∧
    (blend kwCfg [SourceResult.make "gdelt" [] [] 0 (some "HTTP 500"),
                  SourceResult.make "reliefweb" [] [] 0 none] "ctx").1 = 500 :=
  ⟨by decide, blend_neutral_500 kwCfg _ "ctx" (by decide)⟩

/-- C9 counterexample — the claim predicts that an explicitly supplied
override of `0` is kept, but `count or len(texts) + len(scores)` treats a
`0` override as absent: with `texts = ["a"]` and explicit `count = 0` the
stored count is `1`, not `0`. -/
theorem count_zero_override_ignored :
    (SourceResult.make "s" ["a"] [] 0 none).count ≠ 0 ∧
    (SourceResult.make "s" ["a"] [] 0 none).count = 1 := by
  constructor <;> decide

/-- C9 (amended) — the stored `count` equals
`len(texts) + len(scores)` when the override is `0` (which is also the
default, i.e. no override), and equals the override value whenever the
override is nonzero. -/
theorem sourceResult_count_or (name : String) (texts : List String)
    (scores : List ℚ) (count : ℤ) (error : Option String) :
    (count = 0 →
      (SourceResult.make name texts scores count error).count
        = texts.length + scores.length) ∧
    (count ≠ 0 →
      (SourceResult.make name texts scores count error).count = count) := by
  constructor <;> intro h <;> simp [SourceResult.make, h]

theorem sourceResult_count_or_witness :
    (SourceResult.make "s" ["a"] [1/2] 5 none).count = 5 ∧
    (SourceResult.make "s" ["a"] [1/2] 0 none).count = 2 :=
  ⟨(sourceResult_count_or "s" ["a"] [1/2] 5 none).2 (by decide),
   by
    have := (sourceResult_count_or "s" ["a"] [1/2] 0 none).1 rfl
    simpa using this⟩

/-- C1 counterexample — `_blend` converts with `int(...)` (truncation)
and applies no clamp, so the claimed `round(blended * 1000)` clamped to
`[0, 1000]` fails: for scores `[0.8, 0.9, 0.9]` the blended mean is
`13/15`, the claim predicts `867`, the code returns `866`; and for a
(contract-violating) score `2.0` the claim predicts `1000`, the code
returns `2000`. -/
theorem blend_round_claim_false :
    (blend kwCfg [SourceResult.make "a" [] [4/5, 9/10, 9/10] 0 none] "x").1
      ≠ clampInt 0 1000
          (pyRound (blendedQ kwCfg
            [SourceResult.make "a" [] [4/5, 9/10, 9/10] 0 none] "x" * 1000)) ∧
    (blend kwCfg [SourceResult.make "a" [] [4/5, 9/10, 9/10] 0 none] "x").1 = 866 ∧
    clampInt 0 1000
        (pyRound (blendedQ kwCfg
          [SourceResult.make "a" [] [4/5, 9/10, 9/10] 0 none] "x" * 1000)) = 867 ∧
    (blend kwCfg [SourceResult.make "b" [] [2] 0 none] "x").1
      ≠ clampInt 0 1000
          (pyRound (blendedQ kwCfg [SourceResult.make "b" [] [2] 0 none] "x" * 1000)) ∧
    (blend kwCfg [SourceResult.make "b" [] [2] 0 none] "x").1 = 2000 := by
  have hb : blendedQ kwCfg [SourceResult.make "a" [] [4/5, 9/10, 9/10] 0 none] "x"
      = 13/15 := by
    rw [blendedQ_eq,
      show collectTexts [SourceResult.make "a" [] [4/5, 9/10, 9/10] 0 none] = []
        from by simp [collectTexts, SourceResult.make, SourceResult.errTruthy],
      show collectScores [SourceResult.make "a" [] [4/5, 9/10, 9/10] 0 none]
          = [4/5, 9/10, 9/10]
        from by simp [collectScores, SourceResult.make, SourceResult.errTruthy],
      if_neg (show ¬([4/5, 9/10, 9/10] : List ℚ) = [] from by simp)]
    norm_num
  have hb2 : blendedQ kwCfg [SourceResult.make "b" [] [2] 0 none] "x" = 2 := by
    rw [blendedQ_eq,
      show collectTexts [SourceResult.make "b" [] [2] 0 none] = []
        from by simp [collectTexts, SourceResult.make, SourceResult.errTruthy],
      show collectScores [SourceResult.make "b" [] [2] 0 none] = [2]
        from by simp [collectScores, SourceResult.make, SourceResult.errTruthy],
      if_neg (show ¬([2] : List ℚ) = [] from by simp)]
    norm_num
  have e1 : (blend kwCfg [SourceResult.make "a" [] [4/5, 9/10, 9/10] 0 none] "x").1
      = 866 := by
    simp only [blend, hb]; norm_num [pyTrunc]
  have e2 : clampInt 0 1000
      (pyRound (blendedQ kwCfg
        [SourceResult.make "a" [] [4/5, 9/10, 9/10] 0 none] "x" * 1000)) = 867 := by
    rw [hb]; norm_num [pyRound, clampInt]
  have e3 : (blend kwCfg [SourceResult.make "b" [] [2] 0 none] "x").1 = 2000 := by
    simp only [blend, hb2]; norm_num [pyTrunc]
  have e4 : clampInt 0 1000
      (pyRound (blendedQ kwCfg [SourceResult.make "b" [] [2] 0 none] "x" * 1000))
      = 1000 := by
    rw [hb2]; norm_num [pyRound, clampInt]
  exact ⟨by rw [e1, e2]; decide, e1, e2, by rw [e3, e4]; decide, e3⟩

/-- C1 (amended) — the Blender's returned integer score equals
`int(blended * 1000)`, i.e. `blended * 1000` truncated toward zero, with
no clamp applied; in particular, for every result set contributing only
numeric scores (no blendable member — falsy `error` — carries texts, and
some blendable member carries scores), the score equals the truncation of
`mean(all collected scores) * 1000` over the blendable members' scores. -/
theorem blend_trunc_numeric_only (cfg : AnalyzerCfg) (rs : List SourceResult)
    (ctx : String)
    (htext : ∀ r ∈ rs, r.errTruthy = false → r.texts = [])
    (hsc : ∃ r ∈ rs, r.errTruthy = false ∧ r.scores ≠ []) :
    (blend cfg rs ctx).1 = pyTrunc (blendedQ cfg rs ctx * 1000) ∧
    (blend cfg rs ctx).1
      = pyTrunc ((collectScores rs).sum / ((collectScores rs).length : ℚ) * 1000) := by
  have ht : collectTexts rs = [] := collectTexts_nil_of_all_nil rs htext
  have hs : collectScores rs ≠ [] := collectScores_ne_nil rs hsc
  refine ⟨rfl, ?_⟩
  unfold blend
  rw [blendedQ_eq, ht]
  simp [hs]

theorem blend_trunc_numeric_only_witness :
    (∀ r ∈ [SourceResult.make "a" [] [1/2, 3/4] 0 none],
        r.errTruthy = false → r.texts = []) ∧
    (∃ r ∈ [SourceResult.make "a" [] [1/2, 3/4] 0 none],
        r.errTruthy = false ∧ r.scores ≠ []) ∧
    (blend kwCfg [SourceResult.make "a" [] [1/2, 3/4] 0 none] "x").1
      = pyTrunc ((collectScores [SourceResult.make "a" [] [1/2, 3/4] 0 none]).sum
          / ((collectScores [SourceResult.make "a" [] [1/2, 3/4] 0 none]).length : ℚ)
          * 1000) :=
  ⟨by decide, by decide,
   (blend_trunc_numeric_only kwCfg _ "x" (by decide) (by decide)).2⟩

/-- An error-only `SourceResult` in the sense of the spec's data model:
`error` is set (to any string, empty or not) and it carries no texts and
no scores. -/
def SourceResult.isErrorOnly (r : SourceResult) : Bool :=
  decide (r.error ≠ none) && decide (r.texts = []) && decide (r.scores = [])

lemma collectTexts_filter_errorOnly (rs : List SourceResult) :
    collectTexts (rs.filter (fun r => !r.isErrorOnly)) = collectTexts rs := by
  induction rs with
  | nil => rfl
  | cons r rest ih =>
    by_cases hEO : r.isErrorOnly = true
    · have hdrop : (r :: rest).filter (fun r => !r.isErrorOnly)
          = rest.filter (fun r => !r.isErrorOnly) := by
        simp [List.filter_cons, hEO]
      have htexts : r.texts = [] := by
        have h2 := hEO
        simp only [SourceResult.isErrorOnly, Bool.and_eq_true,
          decide_eq_true_eq] at h2
        exact h2.1.2
      rw [hdrop, ih, collectTexts_cons]
      cases hT : r.errTruthy <;> simp [htexts]
    · have hkeep : (r :: rest).filter (fun r => !r.isErrorOnly)
          = r :: rest.filter (fun r => !r.isErrorOnly) := by
        simp [List.filter_cons, hEO]
      rw [hkeep, collectTexts_cons, collectTexts_cons, ih]

lemma collectScores_filter_errorOnly (rs : List SourceResult) :
    collectScores (rs.filter (fun r => !r.isErrorOnly)) = collectScores rs := by
  induction rs with
  | nil => rfl
  | cons r rest ih =>
    by_cases hEO : r.isErrorOnly = true
    · have hdrop : (r :: rest).filter (fun r => !r.isErrorOnly)
          = rest.filter (fun r => !r.isErrorOnly) := by
        simp [List.filter_cons, hEO]
      have hscores : r.scores = [] := by
        have h2 := hEO
        simp only [SourceResult.isErrorOnly, Bool.and_eq_true,
          decide_eq_true_eq] at h2
        exact h2.2
      rw [hdrop, ih, collectScores_cons]
      cases hT : r.errTruthy <;> simp [hscores]
    · have hkeep : (r :: rest).filter (fun r => !r.isErrorOnly)
          = r :: rest.filter (fun r => !r.isErrorOnly) := by
        simp [List.filter_cons, hEO]
      rw [hkeep, collectScores_cons, collectScores_cons, ih]

/-- C7 — the Blender's score is a function only of the non-error-only
members: for result sets with at least one error-only member and at least
one data-bearing member, any two inputs with the same sublist of
non-error-only members (error-only members added, removed, or with
different error messages — empty or not) produce the same score. An
error-only member can never contribute data: a truthy error takes the
provenance-only branch, and a falsy one has nothing to contribute. -/
theorem blend_score_ignores_error_members (cfg : AnalyzerCfg)
    (rs1 rs2 : List SourceResult) (ctx : String)
    (hfil : rs1.filter (fun r => !r.isErrorOnly)
      = rs2.filter (fun r => !r.isErrorOnly))
    (herr : ∃ r ∈ rs1, r.isErrorOnly = true)
    (hdata : ∃ r ∈ rs1, r.error = none ∧ (r.texts ≠ [] ∨ r.scores ≠ [])) :
    (blend cfg rs1 ctx).1 = (blend cfg rs2 ctx).1 := by
  unfold blend
  rw [blendedQ_eq, blendedQ_eq,
    ← collectTexts_filter_errorOnly rs1, ← collectScores_filter_errorOnly rs1,
    ← collectTexts_filter_errorOnly rs2, ← collectScores_filter_errorOnly rs2,
    hfil]

theorem blend_score_ignores_error_members_witness :
    ([SourceResult.make "e" [] [] 0 (some "boom"),
      SourceResult.make "d" [] [1/2] 0 none].filter (fun r => !r.isErrorOnly)
      = [SourceResult.make "d" [] [1/2] 0 none,
         SourceResult.make "e2" [] [] 0 (some "")].filter
            (fun r => !r.isErrorOnly)) ∧
    (blend kwCfg [SourceResult.make "e" [] [] 0 (some "boom"),
                  SourceResult.make "d" [] [1/2] 0 none] "x").1
      = (blend kwCfg [SourceResult.make "d" [] [1/2] 0 none,
                      SourceResult.make "e2" [] [] 0 (some "")] "x").1 :=
  ⟨rfl,
   blend_score_ignores_error_members kwCfg _ _ "x" rfl (by decide) (by decide)⟩

lemma metaGet_metaSet_self (m : List (String × MetaEntry)) (k : String)
    (v : MetaEntry) : metaGet (metaSet m k v) k = some v := by
  induction m with
  | nil => simp [metaSet, metaGet]
  | cons p rest ih =>
    obtain ⟨k', v'⟩ := p
    by_cases h : k' = k
    · simp [metaSet, metaGet, h]
    · simp [metaSet, metaGet, h, ih]

lemma metaGet_metaSet_other (m : List (String × MetaEntry)) (k k' : String)
    (v : MetaEntry) (h : k' ≠ k) : metaGet (metaSet m k' v) k = metaGet m k := by
  induction m with
  | nil => simp [metaSet, metaGet, h]
  | cons p rest ih =>
    obtain ⟨k0, v0⟩ := p
    by_cases h0 : k0 = k'
    · subst h0
      simp [metaSet, metaGet, h]
    · simp only [metaSet]
      rw [if_neg h0]
      by_cases h1 : k0 = k
      · simp [metaGet, h1]
      · simp [metaGet, h1, ih]

lemma blendDataStep_meta_other
    (acc : List String × List ℚ × List (String × MetaEntry))
    (r : SourceResult) (k : String) (h : r.name ≠ k) :
    metaGet (blendDataStep acc r).2.2 k = metaGet acc.2.2 k := by
  unfold blendDataStep
  by_cases ht : r.texts = [] <;> by_cases hs : r.scores = [] <;>
    simp [ht, hs, metaGet_metaSet_other _ _ _ _ h]

lemma blendStep_meta_other (acc : List String × List ℚ × List (String × MetaEntry))
    (r : SourceResult) (k : String) (h : r.name ≠ k) :
    metaGet (blendStep acc r).2.2 k = metaGet acc.2.2 k := by
  cases he : r.error with
  | none =>
    have hred : blendStep acc r = blendDataStep acc r := by
      unfold blendStep; rw [he]
    rw [hred]
    exact blendDataStep_meta_other acc r k h
  | some e =>
    have hred : blendStep acc r
        = if e = "" then blendDataStep acc r
          else (acc.1, acc.2.1, metaSet acc.2.2 r.name (MetaEntry.ofError e)) := by
      unfold blendStep; rw [he]
    rw [hred]
    by_cases hee : e = ""
    · rw [if_pos hee]
      exact blendDataStep_meta_other acc r k h
    · rw [if_neg hee]
      simp [metaGet_metaSet_other _ _ _ _ h]

lemma foldl_blendStep_meta_frozen :
    ∀ (rs : List SourceResult)
      (acc : List String × List ℚ × List (String × MetaEntry)) (k : String),
      (∀ r ∈ rs, r.name ≠ k) →
      metaGet ((rs.foldl blendStep acc).2.2) k = metaGet acc.2.2 k := by
  intro rs
  induction rs with
  | nil => intro acc k _; rfl
  | cons r rest ih =>
    intro acc k h
    simp only [List.foldl_cons]
    rw [ih (blendStep acc r) k (fun r' hr' => h r' (by simp [hr']))]
    exact blendStep_meta_other acc r k (h r (by simp))

/-- C10 counterexample — the claim quantifies over every result whose
`error` field is set, but `_blend` tests `if r.error:` with Python
truthiness: a result with `error = ""` and data DOES contribute its data
and gets an ok-status provenance entry. With the single member
`{error: "", scores: [0.9]}` the code returns 900 (500 without the
member — so the member contributed), and the provenance entry at its
name is the ok/scores record, not an error-status record. -/
theorem error_precedence_empty_error_cex :
    (SourceResult.make "x" [] [9/10] 0 (some "")).error = some "" ∧
    (blend kwCfg [SourceResult.make "x" [] [9/10] 0 (some "")] "c").1 = 900 ∧
    (blend kwCfg ([] : List SourceResult) "c").1 = 500 ∧
    metaGet (blend kwCfg [SourceResult.make "x" [] [9/10] 0 (some "")] "c").2 "x"
      = some (MetaEntry.empty.updScores 1) := by
  refine ⟨rfl, ?_, ?_, ?_⟩
  · have hb : blendedQ kwCfg [SourceResult.make "x" [] [9/10] 0 (some "")] "c"
        = 9/10 := by
      rw [blendedQ_eq,
        show collectTexts [SourceResult.make "x" [] [9/10] 0 (some "")] = []
          from by simp [collectTexts, SourceResult.make, SourceResult.errTruthy],
        show collectScores [SourceResult.make "x" [] [9/10] 0 (some "")] = [9/10]
          from by simp [collectScores, SourceResult.make, SourceResult.errTruthy],
        if_neg (show ¬([9/10] : List ℚ) = [] from by simp)]
      norm_num
    simp only [blend, hb]
    norm_num [pyTrunc]
  · have ht : collectTexts ([] : List SourceResult) = [] := rfl
    have hs : collectScores ([] : List SourceResult) = [] := rfl
    unfold blend
    rw [blendedQ_eq, ht, hs]
    norm_num [pyTrunc]
  · decide

/-- C10 (amended) — a truthy error takes precedence over data in
blending: a `SourceResult` whose `error` is set to a non-empty string
contributes none of its texts or scores (the score equals the score
without that member), and — provided no later result reuses its source
name — its provenance entry is exactly the error-status record. (An
empty-string error is falsy in Python and the member's data is blended.) -/
theorem blend_error_precedence (cfg : AnalyzerCfg) (rs1 rs2 : List SourceResult)
    (r : SourceResult) (e : String) (ctx : String)
    (hr : r.error = some e) (he : e ≠ "")
    (hname : ∀ r' ∈ rs2, r'.name ≠ r.name) :
    (blend cfg (rs1 ++ r :: rs2) ctx).1 = (blend cfg (rs1 ++ rs2) ctx).1 ∧
    metaGet (blend cfg (rs1 ++ r :: rs2) ctx).2 r.name
      = some (MetaEntry.ofError e) := by
  have hT : r.errTruthy = true := by
    simp [SourceResult.errTruthy, hr, he]
  constructor
  · apply blend_score_of_filter_eq
    simp [List.filter_append, List.filter_cons, hT]
  · show metaGet ((blendCollect (rs1 ++ r :: rs2)).2.2) r.name = _
    unfold blendCollect
    rw [List.foldl_append]
    simp only [List.foldl_cons]
    rw [foldl_blendStep_meta_frozen rs2 _ _ hname]
    unfold blendStep
    simp only [hr]
    rw [if_neg he]
    simp [metaGet_metaSet_self]

theorem blend_error_precedence_witness :
    (SourceResult.make "x" ["war is growing"] [1/4] 0 (some "rate limited")).error
      = some "rate limited" ∧
    ("rate limited" : String) ≠ "" ∧
    (∀ r' ∈ [SourceResult.make "d" [] [1/2] 0 none],
      r'.name ≠ (SourceResult.make "x" ["war is growing"] [1/4] 0
        (some "rate limited")).name) ∧
    ((blend kwCfg [SourceResult.make "x" ["war is growing"] [1/4] 0 (some "rate limited"),
                   SourceResult.make "d" [] [1/2] 0 none] "c").1
       = (blend kwCfg [SourceResult.make "d" [] [1/2] 0 none] "c").1 ∧
     metaGet (blend kwCfg
        [SourceResult.make "x" ["war is growing"] [1/4] 0 (some "rate limited"),
         SourceResult.make "d" [] [1/2] 0 none] "c").2 "x"
       = some (MetaEntry.ofError "rate limited")) :=
  ⟨by decide, by decide, by decide,
   blend_error_precedence kwCfg [] [SourceResult.make "d" [] [1/2] 0 none] _
     "rate limited" "c" (by decide) (by decide) (by decide)⟩

/-- The `(pos, neg)` keyword counts contributed by a single text. -/
def textCounts (t : String) : ℕ × ℕ :=
  (pyWords t).foldl keywordStep (0, 0)

lemma foldl_keywordStep_add (ws : List String) (acc : ℕ × ℕ) :
    ws.foldl keywordStep acc
      = (acc.1 + (ws.foldl keywordStep (0, 0)).1,
         acc.2 + (ws.foldl keywordStep (0, 0)).2) := by
  induction ws generalizing acc with
  | nil => simp
  | cons w rest ih =>
    simp only [List.foldl_cons]
    rw [ih (keywordStep acc w), ih (keywordStep (0, 0) w)]
    unfold keywordStep
    by_cases h1 : pyStrip w ∈ POSITIVE
    · simp only [h1, if_true, Prod.mk.injEq]
      omega
    · by_cases h2 : pyStrip w ∈ NEGATIVE
      · simp only [h1, h2, if_true, if_false, Prod.mk.injEq]
        omega
      · simp [h1, h2]

lemma keyword_counts_sum (texts : List String) :
    ∀ acc : ℕ × ℕ,
      texts.foldl (fun acc text => (pyWords text).foldl keywordStep acc) acc
        = (acc.1 + (texts.map (fun t => (textCounts t).1)).sum,
           acc.2 + (texts.map (fun t => (textCounts t).2)).sum) := by
  induction texts with
  | nil => intro acc; simp
  | cons t rest ih =>
    intro acc
    simp only [List.foldl_cons, List.map_cons, List.sum_cons]
    rw [foldl_keywordStep_add (pyWords t) acc, ih]
    simp only [textCounts, Prod.mk.injEq]
    omega

/-- Evaluation of `_analyze_keyword` as a function of the per-text keyword counts. -/
lemma analyzeKeyword_eq_counts (texts : List String) :
    analyzeKeyword texts =
      (if (texts.map (fun t => (textCounts t).1)).sum
            + (texts.map (fun t => (textCounts t).2)).sum = 0 then 1/2
       else ((texts.map (fun t => (textCounts t).1)).sum : ℚ)
          / (((texts.map (fun t => (textCounts t).1)).sum : ℚ)
             + ((texts.map (fun t => (textCounts t).2)).sum : ℚ))) := by
  unfold analyzeKeyword
  rw [keyword_counts_sum texts (0, 0)]
  simp

/-- C8 — the lexicon Text Scorer is order-independent and idempotent:
permuting the input text list does not change the returned value, and
re-scoring the same list returns the same value (the scorer is a pure
function). -/
theorem analyzeKeyword_perm_invariant (t1 t2 : List String) (h : t1.Perm t2) :
    analyzeKeyword t1 = analyzeKeyword t2 ∧
    analyzeKeyword t1 = analyzeKeyword t1 := by
  refine ⟨?_, rfl⟩
  have hp : (t1.map (fun t => (textCounts t).1)).sum
      = (t2.map (fun t => (textCounts t).1)).sum :=
    (h.map (fun t => (textCounts t).1)).sum_eq
  have hn : (t1.map (fun t => (textCounts t).2)).sum
      = (t2.map (fun t => (textCounts t).2)).sum :=
    (h.map (fun t => (textCounts t).2)).sum_eq
  rw [analyzeKeyword_eq_counts, analyzeKeyword_eq_counts, hp, hn]

theorem analyzeKeyword_perm_invariant_witness :
    List.Perm ["war!", "peace, hope"] ["peace, hope", "war!"] ∧
    (analyzeKeyword ["war!", "peace, hope"] = analyzeKeyword ["peace, hope", "war!"] ∧
     analyzeKeyword ["war!", "peace, hope"] = analyzeKeyword ["war!", "peace, hope"]) :=
  ⟨List.Perm.swap "peace, hope" "war!" [],
   analyzeKeyword_perm_invariant _ _ (List.Perm.swap "peace, hope" "war!" [])⟩

/-- The end-to-end example category results: scores `[800, 600, 900, 400,
700]` for subindices 0–4 (empty provenance). -/
def exampleCats : Fin 5 → ℤ × List (String × MetaEntry) :=
  fun i => (([800, 600, 900, 400, 700] : List ℤ).getD i 0, [])

/-- C5 — the off-chain composite computed by `run_once` equals the
integer floor division of
`score0*2000 + score1*1500 + score2*2000 + score3*1500 + score4*1500`
by `8500`; in particular, for scores `[800, 600, 900, 400, 700]` the
composite equals `700`. -/
theorem composite_weighted_fdiv (cfg : Config) (env : ChainEnv)
    (cat : Fin 5 → ℤ × List (String × MetaEntry)) (dryRun : Bool) (now : String) :
    (runOnce cfg env cat dryRun now).1.composite
      = ((cat 0).1 * 2000 + (cat 1).1 * 1500 + (cat 2).1 * 2000
          + (cat 3).1 * 1500 + (cat 4).1 * 1500).fdiv 8500 ∧
    (runOnce cfg env exampleCats dryRun now).1.composite = 700 := by
  constructor
  · show ((cat 0).1 * 2000
        + ((cat 1).1 * 1500
          + ((cat 2).1 * 2000
            + ((cat 3).1 * 1500 + ((cat 4).1 * 1500 + 0))))).fdiv 8500 = _
    congr 1
    ring
  · show ((800 : ℤ) * 2000
        + (600 * 1500 + (900 * 2000 + (400 * 1500 + (700 * 1500 + 0))))).fdiv 8500
        = 700
    decide

/-- A configuration with a tier-2 credential set (used to exercise
"regardless of configured credentials"). -/
def cfgEx : Config :=
  { newsapiKey := "key", twitterBearerToken := "", serperApiKey := "",
    redditClientId := "", redditClientSecret := "", youtubeApiKey := "",
    aqicnToken := "" }

/-- A chain environment in which live submission fully succeeds. -/
def envOk : ChainEnv :=
  { web3Available := true, nonceResult := Except.ok 7,
    outcome := fun _ => StepOutcome.ok }

/-- C6 counterexample — the cycle report returned by `run_once`
contains no per-category submission status: at a concrete input the
report of a dry-run cycle is identical to the report of a live cycle in
which every category was actually submitted and confirmed (while the live
trace shows chain calls did occur). So no field of the report can
"reflect that scores were logged, not submitted". -/
theorem report_mode_blind :
    (runOnce cfgEx envOk exampleCats true "t").1
      = (runOnce cfgEx envOk exampleCats false "t").1 ∧
    (runOnce cfgEx envOk exampleCats false "t").2.1 ≠ [] := by
  constructor
  · rfl
  · decide

/-- C6 (amended) — with dry-run enabled the submitter performs no
chain-client call at all (empty chain trace: no connection, nonce fetch,
build, sign, send, or confirmation wait) regardless of configuration and
chain environment; every submission log line is a dry-run line ("logged,
not submitted"); and the returned cycle report carries no per-category
submission status — it is identical to the report of the same cycle in
live mode. -/
theorem dryRun_no_chain_calls (cfg : Config) (env : ChainEnv)
    (cat : Fin 5 → ℤ × List (String × MetaEntry)) (now : String) :
    (runOnce cfg env cat true now).2.1 = [] ∧
    (∀ l ∈ (runOnce cfg env cat true now).2.2,
        l = LogEvent.dryRunHeader ∨ ∃ id sc, l = LogEvent.dryRunScore id sc) ∧
    (runOnce cfg env cat true now).1 = (runOnce cfg env cat false now).1 := by
  refine ⟨rfl, ?_, rfl⟩
  intro l hl
  have hl2 : l ∈ (submitScores env
      [(0, (cat 0).1), (1, (cat 1).1), (2, (cat 2).1), (3, (cat 3).1),
       (4, (cat 4).1)] true).2 := hl
  unfold submitScores at hl2
  rw [if_pos rfl] at hl2
  rcases List.mem_cons.mp hl2 with h | h
  · left; exact h
  · right
    obtain ⟨sid, _, hsid⟩ := List.mem_filterMap.mp h
    by_cases h5 : sid < 5
    · rw [if_pos h5] at hsid
      injection hsid with h'
      exact ⟨sid, _, h'.symm⟩
    · rw [if_neg h5] at hsid
      cases hsid

lemma submitLoop_fault_facts (env : ChainEnv) (scores : List (ℕ × ℤ))
    (k : ℕ) (p : Fin 4) (m : String)
    (hf : env.outcome k = StepOutcome.fault p m)
    (hok : ∀ j, j < k → env.outcome j = StepOutcome.ok) :
    ∀ fuel lo (nonce : ℤ), 5 - lo = fuel → lo ≤ k → k < 5 →
      (∀ j sc nn, ChainEvent.buildTx j sc nn
          ∈ (submitLoop env scores (List.range' lo fuel) nonce).1 → j ≤ k) ∧
      (∀ j, lo ≤ j → j < k →
          LogEvent.updated j
            ∈ (submitLoop env scores (List.range' lo fuel) nonce).2.1) ∧
      (submitLoop env scores (List.range' lo fuel) nonce).2.2 = some m := by
  intro fuel
  induction fuel with
  | zero => intro lo nonce hfuel hlo hk5; omega
  | succ f ih =>
    intro lo nonce hfuel hlo hk5
    have h5 : ¬ 5 ≤ lo := by omega
    have hrange : List.range' lo (f + 1) = lo :: List.range' (lo + 1) f := by
      simp [List.range'_succ]
    rw [hrange]
    by_cases hlk : lo = k
    · subst hlk
      refine ⟨?_, ?_, ?_⟩
      · intro j sc nn hmem
        simp only [submitLoop] at hmem
        rw [if_neg h5] at hmem
        simp only [hf] at hmem
        have hfull := List.take_subset _ _ hmem
        simp only [attemptEvents, List.mem_cons, List.not_mem_nil, or_false] at hfull
        rcases hfull with h | h | h | h
        · injection h with h1 _ _; omega
        · cases h
        · cases h
        · cases h
      · intro j hj1 hj2; omega
      · simp only [submitLoop]
        rw [if_neg h5]
        simp only [hf]
    · have hlk' : lo < k := by omega
      have ho := hok lo hlk'
      obtain ⟨ih1, ih2, ih3⟩ := ih (lo + 1) (nonce + 1) (by omega) (by omega) hk5
      refine ⟨?_, ?_, ?_⟩
      · intro j sc nn hmem
        simp only [submitLoop] at hmem
        rw [if_neg h5] at hmem
        simp only [ho] at hmem
        rcases List.mem_append.mp hmem with h' | h'
        · simp only [attemptEvents, List.mem_cons, List.not_mem_nil, or_false] at h'
          rcases h' with h | h | h | h
          · injection h with h1 _ _; omega
          · cases h
          · cases h
          · cases h
        · exact ih1 j sc nn h'
      · intro j hj1 hj2
        simp only [submitLoop]
        rw [if_neg h5]
        simp only [ho]
        by_cases hjl : j = lo
        · subst hjl
          exact List.mem_cons_of_mem _ (List.mem_cons_self _ _)
        · exact List.mem_cons_of_mem _ (List.mem_cons_of_mem _
            (ih2 j (by omega) hj2))
      · simp only [submitLoop]
        rw [if_neg h5]
        simp only [ho]
        exact ih3

/-- C2 — in live mode, if the update for category `k` (0 ≤ k ≤ 4)
fails (submission fault during build/sign/send, confirmation timeout —
with an available chain client and a fetched nonce), then no category
with id greater than `k` is ever attempted (no transaction is built for
it), every category below `k` is reported as submitted (its "updated" log
line was emitted on confirmation), and every category from `k` through 4
appears in the "not submitted" fallback log. -/
theorem submit_abort_order (env : ChainEnv) (a b c d e : ℤ) (k : ℕ) (n : ℤ)
    (p : Fin 4) (m : String)
    (hk : k < 5)
    (hw : env.web3Available = true)
    (hn : env.nonceResult = Except.ok n)
    (hok : ∀ j, j < k → env.outcome j = StepOutcome.ok)
    (hf : env.outcome k = StepOutcome.fault p m) :
    (∀ j, k < j → ∀ sc nn,
        ChainEvent.buildTx j sc nn
          ∉ (submitScores env [(0, a), (1, b), (2, c), (3, d), (4, e)] false).1) ∧
    (∀ j, j < k →
        LogEvent.updated j
          ∈ (submitScores env [(0, a), (1, b), (2, c), (3, d), (4, e)] false).2) ∧
    (∀ j, k ≤ j → j < 5 →
        LogEvent.notSubmitted j
            (lookupScore [(0, a), (1, b), (2, c), (3, d), (4, e)] j)
          ∈ (submitScores env [(0, a), (1, b), (2, c), (3, d), (4, e)] false).2) := by
  obtain ⟨hloop1, hloop2, hloop3⟩ :=
    submitLoop_fault_facts env [(0, a), (1, b), (2, c), (3, d), (4, e)] k p m
      hf hok 5 0 n rfl (by omega) hk
  have hkeys : sortKeys (([(0, a), (1, b), (2, c), (3, d), (4, e)]).map Prod.fst)
      = List.range' 0 5 := rfl
  have hsub : submitScores env [(0, a), (1, b), (2, c), (3, d), (4, e)] false
      = (ChainEvent.connect :: ChainEvent.getNonce
           :: (submitLoop env [(0, a), (1, b), (2, c), (3, d), (4, e)]
                 (List.range' 0 5) n).1,
         (submitLoop env [(0, a), (1, b), (2, c), (3, d), (4, e)]
             (List.range' 0 5) n).2.1
           ++ (LogEvent.errorLog ("On-chain submission failed: " ++ m)
                :: logScores [(0, a), (1, b), (2, c), (3, d), (4, e)])) := by
    unfold submitScores
    rw [if_neg (show ¬(false = true) from by simp)]
    rw [hw, if_neg (show ¬(true = false) from by simp)]
    simp only [hn, hkeys, hloop3]
  refine ⟨?_, ?_, ?_⟩
  · intro j hj sc nn hmem
    rw [hsub] at hmem
    rcases List.mem_cons.mp hmem with h | h
    · cases h
    rcases List.mem_cons.mp h with h' | h'
    · cases h'
    · have := hloop1 j sc nn h'
      omega
  · intro j hj
    rw [hsub]
    exact List.mem_append_left _ (hloop2 j (by omega) hj)
  · intro j hj1 hj5
    rw [hsub]
    refine List.mem_append_right _ (List.mem_cons_of_mem _ ?_)
    unfold logScores
    refine List.mem_cons_of_mem _ (List.mem_filterMap.mpr ⟨j, ?_, ?_⟩)
    · rw [hkeys]
      interval_cases j <;> simp [List.range']
    · rw [if_pos hj5]

/-- A chain environment in which categories 0 and 1 confirm and category
2 faults while building its transaction. -/
def envC2 : ChainEnv :=
  { web3Available := true, nonceResult := Except.ok 5,
    outcome := fun j =>
      if j = 2 then StepOutcome.fault 0 "boom" else StepOutcome.ok }

theorem submit_abort_order_witness :
    (2 : ℕ) < 5 ∧ envC2.web3Available = true ∧
    envC2.nonceResult = Except.ok 5 ∧
    (∀ j, j < 2 → envC2.outcome j = StepOutcome.ok) ∧
    envC2.outcome 2 = StepOutcome.fault 0 "boom" ∧
    LogEvent.updated 1
      ∈ (submitScores envC2 [(0, 800), (1, 600), (2, 900), (3, 400), (4, 700)]
          false).2 ∧
    LogEvent.notSubmitted 4 700
      ∈ (submitScores envC2 [(0, 800), (1, 600), (2, 900), (3, 400), (4, 700)]
          false).2 ∧
    (∀ sc nn, ChainEvent.buildTx 3 sc nn
      ∉ (submitScores envC2 [(0, 800), (1, 600), (2, 900), (3, 400), (4, 700)]
          false).1) :=
  ⟨by omega, rfl, rfl, fun j hj => by interval_cases j <;> rfl, rfl,
   (submit_abort_order envC2 800 600 900 400 700 2 5 0 "boom" (by omega) rfl rfl
       (fun j hj => by interval_cases j <;> rfl) rfl).2.1 1 (by omega),
   (submit_abort_order envC2 800 600 900 400 700 2 5 0 "boom" (by omega) rfl rfl
       (fun j hj => by interval_cases j <;> rfl) rfl).2.2 4 (by omega) (by omega),
   fun sc nn =>
     (submit_abort_order envC2 800 600 900 400 700 2 5 0 "boom" (by omega) rfl rfl
        (fun j hj => by interval_cases j <;> rfl) rfl).1 3 (by omega) sc nn⟩
